import Mathlib

/-!
# desco: framebuffer, PNG blitter and touch dispatcher

A shallow embedding of `src/graphics/framebuffer.c`, `src/fb_png.c` and the
`main_loop` of `src/desco.c`.

Conventions of the embedding.

* The mapped display buffer `fb->u8_data` is a total map from byte offsets to
  byte values (`Mem`).  A store outside the `data_length` bytes of the mapping
  is recorded like any other store, so that out-of-range stores can be observed.
* `unsigned int` values are natural numbers; every C operation that can wrap is
  written with an explicit `% 2 ^ 32`.
* Multi-byte stores (`u32_data[i] = v`, `memcpy (dst, &color.value, n)`) are
  little-endian.
* The declarations of `framebuffer.h`, `font/font8x8.h` and `text/utf8.h` are not
  part of the sources.  The font tables and `is_transparent` are parameters
  (`Env`); a string is the list of code points `u8_nextchar` yields for it.
-/

namespace Desco

/-! ## Memory -/

/-- The bytes reachable from `fb->u8_data`, by offset. -/
abbrev Mem := Nat → Nat

/-- C `for (i = 0; i < n; ++i) body`: the state after the first `n` rounds. -/
def for_loop (n : Nat) (body : Nat → Mem → Mem) (m : Mem) : Mem :=
  match n with
  | 0 => m
  | k + 1 => body k (for_loop k body m)

/-- Little-endian store of the low `n` bytes of `v` at offset `off`. -/
def store_le (m : Mem) (off n v : Nat) : Mem :=
  fun a => if off ≤ a ∧ a < off + n then (v / 256 ^ (a - off)) % 256 else m a

/-- Little-endian load of `n` bytes at offset `off`. -/
def load_le (m : Mem) (off : Nat) : Nat → Nat
  | 0 => 0
  | n + 1 => m off % 256 + 256 * load_le m (off + 1) n

/-- C `memcpy (dst + doff, src + soff, n)` from a source buffer `src`. -/
def memcpy (dst : Mem) (doff : Nat) (src : Nat → Nat) (soff n : Nat) : Mem :=
  fun a => if doff ≤ a ∧ a < doff + n then src (soff + (a - doff)) else dst a

/-! ## Data model -/

/-- The C `color_t`: a native pixel value. -/
structure color_t where
  value : Nat

/-- The geometry fields of the C `struct framebuffer` (all `unsigned int`). -/
structure framebuffer where
  width : Nat
  height : Nat
  bpp : Nat
  line_length : Nat
  data_length : Nat

/-- The pixel at cell index `k` of the buffer seen as an array of `bpp / 8`-byte cells. -/
def read_cell (fb : framebuffer) (m : Mem) (k : Nat) : Nat :=
  load_le m (k * (fb.bpp / 8)) (fb.bpp / 8)

/-! ## `clear_framebuffer` (framebuffer.c, lines 161-171) -/

/-- The 32-bit word `clear_framebuffer` stores. -/
def clear_value (fb : framebuffer) (color : color_t) : Nat :=
  let value := color.value % 2 ^ 32
  if fb.bpp = 16 then value ||| ((value <<< 16) % 2 ^ 32) else value

/-- C `clear_framebuffer`: `data_length / 4` stores of a 32-bit word. -/
def clear_framebuffer (fb : framebuffer) (m : Mem) (color : color_t) : Mem :=
  for_loop (fb.data_length / 4)
    (fun i mem => store_le mem (4 * i) 4 (clear_value fb color)) m

/-! ## The glyph rasterizer (framebuffer.c, lines 173-231) -/

/-- The declarations the rasterizer takes from headers that are not part of the
sources: the seven tables of `font/font8x8.h` (table, index, row ↦ the `char`
stored there) and `is_transparent` of `framebuffer.h`. -/
structure Env where
  font8x8_basic : Nat → Nat → Nat
  font8x8_control : Nat → Nat → Nat
  font8x8_ext_latin : Nat → Nat → Nat
  font8x8_greek : Nat → Nat → Nat
  font8x8_box : Nat → Nat → Nat
  font8x8_block : Nat → Nat → Nat
  font8x8_hiragana : Nat → Nat → Nat
  is_transparent : color_t → Bool

/-- The glyph lookup at the head of C `print_char`: `none` is the early `return`. -/
def char_array (env : Env) (c : Nat) : Option (Nat → Nat) :=
  if c ≤ 0x7f then some (env.font8x8_basic c)
  else if 0x80 ≤ c ∧ c ≤ 0x9F then some (env.font8x8_control (c - 0x80))
  else if 0xA0 ≤ c ∧ c ≤ 0xff then some (env.font8x8_ext_latin (c - 0xA0))
  else if 0x390 ≤ c ∧ c ≤ 0x3C9 then some (env.font8x8_greek (c - 0x390))
  else if 0x2500 ≤ c ∧ c ≤ 0x257F then some (env.font8x8_box (c - 0x2500))
  else if 0x2580 ≤ c ∧ c ≤ 0x259F then some (env.font8x8_block (c - 0x2580))
  else if 0x3040 ≤ c ∧ c ≤ 0x309F then some (env.font8x8_hiragana (c - 0x3040))
  else none

/-- The byte offset `py * fb->line_length + px * fb->bpp / 8` as C computes it:
both products are `unsigned int` products, the sum is pointer arithmetic. -/
def pixel_offset (fb : framebuffer) (px py : Nat) : Nat :=
  ((py % 2 ^ 32) * fb.line_length) % 2 ^ 32 + (((px % 2 ^ 32) * fb.bpp) % 2 ^ 32) / 8

/-- The body of the inner loop of C `print_char`, for glyph row value `val`. -/
def print_cell (env : Env) (fb : framebuffer) (start_x start_y : Nat)
    (color backcolor : color_t) (val y x : Nat) (m : Mem) : Mem :=
  if val &&& (1 <<< x) ≠ 0 then
    store_le m (pixel_offset fb (start_x + x) (start_y + y)) (fb.bpp / 8) color.value
  else if !env.is_transparent backcolor then
    store_le m (pixel_offset fb (start_x + x) (start_y + y)) (fb.bpp / 8) backcolor.value
  else m

/-- The body of the outer loop of C `print_char`, for the glyph `glyph`. -/
def print_row (env : Env) (fb : framebuffer) (start_x start_y : Nat)
    (color backcolor : color_t) (glyph : Nat → Nat) (y : Nat) (m : Mem) : Mem :=
  let val := glyph y % 256
  if val = 0 ∧ env.is_transparent backcolor = true then m
  else for_loop 8 (print_cell env fb start_x start_y color backcolor val y) m

/-- C `print_char`. -/
def print_char (env : Env) (fb : framebuffer) (m : Mem) (start_x start_y : Nat)
    (color backcolor : color_t) (c : Nat) : Mem :=
  match char_array env c with
  | none => m
  | some glyph => for_loop 8 (print_row env fb start_x start_y color backcolor glyph) m

/-- The wrap test at the head of the loop of C `fb_print` (lines 219-222). -/
def wrap_cursor (fb : framebuffer) (x y : Nat) : Nat × Nat :=
  if (x + 7) % 2 ^ 32 > fb.width then (x % 8, (y + 8) % 2 ^ 32) else (x, y)

/-- C `fb_print`.  The string is the list of code points `u8_nextchar` yields;
the end of the list and a code point 0 both end the loop. -/
def fb_print (env : Env) (fb : framebuffer) (m : Mem) (x y : Nat)
    (color backcolor : color_t) (str : List Nat) : Mem :=
  match str with
  | [] => m
  | c :: rest =>
    let p := wrap_cursor fb x y
    if p.2 > fb.height then m
    else if c = 0 then m
    else
      fb_print env fb (print_char env fb m p.1 p.2 color backcolor c)
        ((p.1 + 8) % 2 ^ 32) p.2 color backcolor rest

/-- The pixel at column `px`, row `py`: the `bpp / 8` bytes at
`py * line_length + px * bpp / 8`. -/
def read_pixel (fb : framebuffer) (m : Mem) (px py : Nat) : Nat :=
  load_le m (py * fb.line_length + px * fb.bpp / 8) (fb.bpp / 8)

/-! ## `fb_vprintf` (framebuffer.c, lines 233-250) -/

/-- One call of `vsnprintf (p, size, format, ap)`: the number of bytes of the
block `p` points to, and the `size` the call is given. -/
structure format_pass where
  capacity : Int
  size : Int
deriving DecidableEq, Repr

/-- The `try_alloc:` loop of C `fb_vprintf`.  `needed` is what `vsnprintf`
returns for the template and arguments; `capacity` is the size of the block the
last `alloca` returned.  The result is the list of formatting passes, and
whether `fb_print` is reached. -/
def try_alloc (needed : Int) (capacity size : Int) : List format_pass × Bool :=
  if needed < 0 then ([⟨capacity, size⟩], false)
  else if h : needed ≥ size then
    let r := try_alloc needed (needed - size + 1) (needed + 1)
    (⟨capacity, size⟩ :: r.1, r.2)
  else ([⟨capacity, size⟩], true)
termination_by (needed + 1 - size).toNat
decreasing_by omega

/-- C `fb_vprintf`: the formatting passes made, and the buffer after the text
(the code points of the formatted string) is printed. -/
def fb_vprintf (env : Env) (fb : framebuffer) (m : Mem) (x y : Nat)
    (color backcolor : color_t) (needed : Int) (text : List Nat) :
    List format_pass × Mem :=
  let r := try_alloc needed 100 100
  (r.1, if r.2 then fb_print env fb m x y color backcolor text else m)

/-! ## `blit_png` (fb_png.c, lines 156-184) -/

/-- The C `struct png_file`: `data` holds the pixels in the native encoding. -/
structure png_file where
  width : Nat
  height : Nat
  data : Nat → Nat

/-- Conversion of an `unsigned int` to `int`. -/
def to_int (n : Nat) : Int :=
  if n % 2 ^ 32 < 2 ^ 31 then ((n % 2 ^ 32 : Nat) : Int) else ((n % 2 ^ 32 : Nat) : Int) - 2 ^ 32

/-- The `max_y` of C `blit_png` (lines 171-174). -/
def blit_max_y (image : png_file) (fb : framebuffer) (dst_y : Nat) : Int :=
  if (dst_y + image.height) % 2 ^ 32 < fb.height then to_int image.height
  else to_int ((fb.height + 2 ^ 32 - dst_y % 2 ^ 32) % 2 ^ 32)

/-- The `memcpy` of one image row in the loop of C `blit_png` (lines 180-182). -/
def blit_row (image : png_file) (fb : framebuffer) (dst_y : Nat) (y : Nat) (m : Mem) : Mem :=
  memcpy m ((((y + dst_y) % 2 ^ 32) * fb.line_length) % 2 ^ 32)
    image.data ((((y * image.width) % 2 ^ 32) * fb.bpp) % 2 ^ 32 / 8)
    ((image.width * fb.bpp) % 2 ^ 32 / 8)

/-- C `blit_png`. -/
def blit_png (image : png_file) (fb : framebuffer) (m : Mem) (dst_x dst_y : Nat) : Mem :=
  if image.width = fb.width then
    memcpy m 0 image.data 0
      (((((image.width * image.height) % 2 ^ 32 + dst_x) % 2 ^ 32) * fb.bpp) % 2 ^ 32 / 8)
  else
    for_loop (blit_max_y image fb dst_y).toNat (blit_row image fb dst_y) m

/-! ## `main_loop` (desco.c, lines 44-107) -/

/-- The status lines `main_loop` prints at (0, 0). -/
inductive msg where
  | trying_to_open
  | trying_again_ellipsis
  | trying_again_bang
  | cannot_open
  | configuring
  | ts_config_failed
  | blank
  | initiating_shutdown
  | initiating_reboot
deriving DecidableEq, Repr

/-- The calls `main_loop` makes, in order. -/
inductive event where
  | fb_print (m : msg)
  | ts_open
  | sleep (seconds : Nat)
  | perror_ts_open
  | ts_config
  | perror_ts_config
  | print_temp
  | poll (timeout_ms : Nat)
  | ts_read
  | shutdown
  | reboot
  | ts_close
deriving DecidableEq, Repr

/-- What the if-chain of lines 93-101 does with a sample. -/
inductive action where
  | power_off
  | reboot
  | exit_loop
  | no_action
deriving DecidableEq, Repr

/-- How a run of `main_loop` ends. -/
inductive ending where
  | device_unavailable
  | configuration_error
  | exited
  | powered_off
  | rebooted
  | polling
deriving DecidableEq, Repr

/-- C `unsigned int v = max (raw, 0)` (lines 89-90). -/
def clamp_coord (raw : Int) : Nat :=
  (if raw > 0 then raw else 0).toNat % 2 ^ 32

/-- The if-chain of lines 93-101 on the clamped coordinates; `fb->width - 30`
and `fb->height - 30` are `unsigned int` differences. -/
def hit_test (fb : framebuffer) (x y : Nat) : action :=
  if x ≥ (fb.width + 2 ^ 32 - 30) % 2 ^ 32 ∧ y ≤ 30 then action.power_off
  else if x ≥ (fb.width + 2 ^ 32 - 30) % 2 ^ 32 ∧ y ≥ (fb.height + 2 ^ 32 - 30) % 2 ^ 32 then
    action.reboot
  else if x ≤ 30 ∧ y ≤ 30 then action.exit_loop
  else action.no_action

/-- Lines 89-101: what `main_loop` does with the sample (`samp_x`, `samp_y`). -/
def touch_action (fb : framebuffer) (samp_x samp_y : Int) : action :=
  hit_test fb (clamp_coord samp_x) (clamp_coord samp_y)

/-- The `do ... while` of lines 52-59, entered with the counter `retry` before
the open attempt number `attempt`; `opens i` tells whether the attempt number
`i` (from 0) succeeds.  The result is the calls made and whether `ts` is set. -/
def connect (opens : Nat → Bool) (retry attempt : Nat) : List event × Bool :=
  match retry with
  | 0 => ([event.ts_open], opens attempt)
  | r + 1 =>
    let ts := opens attempt
    let again :=
      if ts = false ∧ r + 1 > 1 then
        [event.fb_print msg.trying_again_ellipsis, event.sleep 1,
          event.fb_print msg.trying_again_bang]
      else []
    if ts = false ∧ r > 0 then
      let next := connect opens r (attempt + 1)
      (event.ts_open :: again ++ next.1, next.2)
    else (event.ts_open :: again, ts)

/-- One round of the `while (1)` of lines 79-104, as the environment decides it. -/
structure poll_round where
  revents : Bool
  ret : Int
  samp_x : Int
  samp_y : Int
  exec_fails : Bool

/-- One round of the `while (1)` of lines 79-104: the calls made, and how the
run ends if the round ends it (`none` when the loop goes on).  `execl` does not
return unless it fails. -/
def poll_step (fb : framebuffer) (p : poll_round) : List event × Option ending :=
  if p.revents = false then ([event.print_temp, event.poll 1000], none)
  else if p.ret ≠ 1 then ([event.print_temp, event.poll 1000, event.ts_read], none)
  else
    match touch_action fb p.samp_x p.samp_y with
    | action.power_off =>
      ([event.print_temp, event.poll 1000, event.ts_read,
        event.fb_print msg.initiating_shutdown, event.shutdown],
        if p.exec_fails then none else some ending.powered_off)
    | action.reboot =>
      ([event.print_temp, event.poll 1000, event.ts_read,
        event.fb_print msg.initiating_reboot, event.reboot],
        if p.exec_fails then none else some ending.rebooted)
    | action.exit_loop =>
      ([event.print_temp, event.poll 1000, event.ts_read, event.ts_close],
        some ending.exited)
    | action.no_action => ([event.print_temp, event.poll 1000, event.ts_read], none)

/-- The `while (1)` of lines 79-104 over the rounds the environment provides;
`ending.polling` when the rounds are used up with the loop still running. -/
def dispatch (fb : framebuffer) (rounds : List poll_round) : List event × ending :=
  match rounds with
  | [] => ([], ending.polling)
  | p :: rest =>
    match (poll_step fb p).2 with
    | some e => ((poll_step fb p).1, e)
    | none => ((poll_step fb p).1 ++ (dispatch fb rest).1, (dispatch fb rest).2)

/-- C `main_loop`: the calls made and how the run ends. -/
def main_loop (fb : framebuffer) (opens : Nat → Bool) (config_fails : Bool)
    (rounds : List poll_round) : List event × ending :=
  let c := connect opens 5 0
  if c.2 = false then
    (event.fb_print msg.trying_to_open :: c.1 ++
      [event.fb_print msg.cannot_open, event.perror_ts_open], ending.device_unavailable)
  else if config_fails then
    (event.fb_print msg.trying_to_open :: c.1 ++
      [event.fb_print msg.configuring, event.ts_config,
        event.fb_print msg.ts_config_failed, event.perror_ts_config],
      ending.configuration_error)
  else
    let d := dispatch fb rounds
    (event.fb_print msg.trying_to_open :: c.1 ++
      [event.fb_print msg.configuring, event.ts_config, event.fb_print msg.blank] ++ d.1, d.2)

/-! ## Reference behaviour and concrete inputs -/

/-- The calls of `n` failed open attempts in a row, each followed by the status
line, the one-second pause and the second status line. -/
def failed_attempts : Nat → List event
  | 0 => []
  | n + 1 =>
    event.ts_open :: event.fb_print msg.trying_again_ellipsis :: event.sleep 1 ::
      event.fb_print msg.trying_again_bang :: failed_attempts n

/-- A 32x24 surface at 32 bpp: 128 bytes a row. -/
def fb_32x24_32 : framebuffer :=
  { width := 32, height := 24, bpp := 32, line_length := 128, data_length := 3072 }

/-- A buffer of zero bytes. -/
def zero_mem : Mem := fun _ => 0

/-- A 3x1 surface at 16 bpp whose mapping is 6 bytes long. -/
def fb_3x1_16 : framebuffer :=
  { width := 3, height := 1, bpp := 16, line_length := 6, data_length := 6 }

/-- A 40x40 surface at 32 bpp. -/
def fb_40x40_32 : framebuffer :=
  { width := 40, height := 40, bpp := 32, line_length := 160, data_length := 6400 }

/-- A 320x240 surface at 16 bpp. -/
def fb_320x240_16 : framebuffer :=
  { width := 320, height := 240, bpp := 16, line_length := 640, data_length := 153600 }

/-- A 2x2 surface at 32 bpp: 8 bytes a row, 16 bytes in all. -/
def fb_2x2_32 : framebuffer :=
  { width := 2, height := 2, bpp := 32, line_length := 8, data_length := 16 }

/-- A 4x2 surface at 32 bpp: 16 bytes a row, 32 bytes in all. -/
def fb_4x2_32 : framebuffer :=
  { width := 4, height := 2, bpp := 32, line_length := 16, data_length := 32 }

/-- An image 2 pixels wide and 3 rows high whose byte number `i` is `i + 1`. -/
def png_2x3 : png_file := { width := 2, height := 3, data := fun i => i + 1 }

/-- An image of one pixel whose bytes are 1, 2, 3, 4. -/
def png_1x1 : png_file := { width := 1, height := 1, data := fun i => i + 1 }

/-- A 16x8 surface at 32 bpp: 64 bytes a row, 512 bytes in all. -/
def fb_16x8_32 : framebuffer :=
  { width := 16, height := 8, bpp := 32, line_length := 64, data_length := 512 }

/-- A stand-in for the absent headers, used only to evaluate the code at concrete
inputs: the glyph of `A` (U+0041) has the rows 0C 1E 33 33 3F 33 33 00, every
other glyph is blank, and the colour value 0xFF000000 is the transparency
sentinel.  Every general theorem below is stated for an arbitrary `Env`. -/
def sample_env : Env :=
  { font8x8_basic := fun c row =>
      if c = 0x41 then [0x0C, 0x1E, 0x33, 0x33, 0x3F, 0x33, 0x33, 0x00].getD row 0 else 0
    font8x8_control := fun _ _ => 0
    font8x8_ext_latin := fun _ _ => 0
    font8x8_greek := fun _ _ => 0
    font8x8_box := fun _ _ => 0
    font8x8_block := fun _ _ => 0
    font8x8_hiragana := fun _ _ => 0
    is_transparent := fun c => c.value == 0xFF000000 }

/-- The text colour of the concrete runs. -/
def sample_text : color_t := ⟨0xFF0000⟩

/-- The (opaque) background colour of the concrete runs. -/
def sample_back : color_t := ⟨0x003200⟩

/-! ## Memory lemmas -/

theorem for_loop_outside (n : Nat) (body : Nat → Mem → Mem) (m : Mem) (a : Nat)
    (h : ∀ i, i < n → ∀ m1 : Mem, body i m1 a = m1 a) :
    for_loop n body m a = m a := by
  induction n with
  | zero => rfl
  | succ k ih =>
    show body k (for_loop k body m) a = m a
    rw [h k (Nat.lt_succ_self k), ih (fun i hi => h i (Nat.lt_succ_of_lt hi))]

theorem for_loop_local (n : Nat) (body : Nat → Mem → Mem) (a : Nat)
    (hlocal : ∀ j (m1 m2 : Mem), m1 a = m2 a → body j m1 a = body j m2 a)
    (m1 m2 : Mem) (h : m1 a = m2 a) :
    for_loop n body m1 a = for_loop n body m2 a := by
  induction n with
  | zero => exact h
  | succ k ih => exact hlocal k _ _ ih

theorem for_loop_at (n : Nat) (body : Nat → Mem → Mem) (m : Mem) (a i : Nat) (hi : i < n)
    (hlocal : ∀ j (m1 m2 : Mem), m1 a = m2 a → body j m1 a = body j m2 a)
    (hframe : ∀ j, j < n → j ≠ i → ∀ m1 : Mem, body j m1 a = m1 a) :
    for_loop n body m a = body i m a := by
  induction n with
  | zero => omega
  | succ k ih =>
    show body k (for_loop k body m) a = body i m a
    by_cases hik : i = k
    · subst hik
      apply hlocal
      exact for_loop_outside i body m a
        (fun j hj m1 => hframe j (Nat.lt_succ_of_lt hj) (by omega) m1)
    · rw [hframe k (Nat.lt_succ_self k) (fun h => hik h.symm)]
      exact ih (by omega) (fun j hj hne m1 => hframe j (Nat.lt_succ_of_lt hj) hne m1)

theorem store_le_inside (m : Mem) (off n v a : Nat) (h1 : off ≤ a) (h2 : a < off + n) :
    store_le m off n v a = (v / 256 ^ (a - off)) % 256 := by
  simp [store_le, h1, h2]

theorem store_le_outside (m : Mem) (off n v a : Nat) (h : a < off ∨ off + n ≤ a) :
    store_le m off n v a = m a := by
  unfold store_le
  rw [if_neg]
  omega

theorem store_le_local (off n v a : Nat) (m1 m2 : Mem) (h : m1 a = m2 a) :
    store_le m1 off n v a = store_le m2 off n v a := by
  unfold store_le
  split <;> simp [h]

theorem load_le_congr (m1 m2 : Mem) (n off : Nat)
    (h : ∀ a, off ≤ a → a < off + n → m1 a = m2 a) :
    load_le m1 off n = load_le m2 off n := by
  induction n generalizing off with
  | zero => rfl
  | succ k ih =>
    show m1 off % 256 + 256 * load_le m1 (off + 1) k = m2 off % 256 + 256 * load_le m2 (off + 1) k
    rw [h off (Nat.le_refl _) (by omega), ih (off + 1) (fun a h1 h2 => h a (by omega) (by omega))]

theorem load_le_store_le (m : Mem) (n off v : Nat) :
    load_le (store_le m off n v) off n = v % 256 ^ n := by
  induction n generalizing off v m with
  | zero => simp [load_le, Nat.mod_one]
  | succ k ih =>
    show store_le m off (k + 1) v off % 256
      + 256 * load_le (store_le m off (k + 1) v) (off + 1) k = v % 256 ^ (k + 1)
    have hrest : load_le (store_le m off (k + 1) v) (off + 1) k
        = load_le (store_le m (off + 1) k (v / 256)) (off + 1) k := by
      apply load_le_congr
      intro a h1 h2
      rw [store_le_inside _ _ _ _ _ (by omega) (by omega), store_le_inside _ _ _ _ _ h1 h2]
      have : a - off = (a - (off + 1)) + 1 := by omega
      rw [this, Nat.pow_succ, Nat.mul_comm, Nat.div_div_eq_div_mul]
    rw [hrest, ih, store_le_inside _ _ _ _ _ (Nat.le_refl _) (by omega)]
    simp only [Nat.sub_self, Nat.pow_zero, Nat.div_one, Nat.mod_mod]
    rw [Nat.pow_succ, Nat.mul_comm (256 ^ k) 256, Nat.mod_mul]

/-! ## `clear_framebuffer` -/

/-- Every byte below `4 * (data_length / 4)` holds its byte of the fill word;
every byte from there on is left as it was. -/
theorem clear_framebuffer_byte (fb : framebuffer) (m : Mem) (color : color_t) (a : Nat) :
    clear_framebuffer fb m color a =
      if a < 4 * (fb.data_length / 4) then (clear_value fb color / 256 ^ (a % 4)) % 256
      else m a := by
  unfold clear_framebuffer
  split
  · next h =>
    have hat := for_loop_at (fb.data_length / 4)
      (fun i mem => store_le mem (4 * i) 4 (clear_value fb color)) m a (a / 4) (by omega)
      (fun j m1 m2 hm => store_le_local _ _ _ _ _ _ hm)
      (fun j _ hne m1 => store_le_outside _ _ _ _ _ (by omega))
    rw [hat]
    show store_le m (4 * (a / 4)) 4 (clear_value fb color) a = _
    rw [store_le_inside _ _ _ _ _ (by omega) (by omega)]
    have : a - 4 * (a / 4) = a % 4 := by omega
    rw [this]
  · next h =>
    exact for_loop_outside _ _ m a (fun i hi m1 => store_le_outside _ _ _ _ _ (by omega))

theorem clear_value_16 (fb : framebuffer) (color : color_t) (h : fb.bpp = 16)
    (hc : color.value < 2 ^ 16) :
    clear_value fb color = color.value + 65536 * color.value := by
  have h1 : color.value % 2 ^ 32 = color.value := Nat.mod_eq_of_lt (by omega)
  have h2 : (color.value <<< 16) % 2 ^ 32 = 2 ^ 16 * color.value := by
    rw [Nat.shiftLeft_eq, Nat.mul_comm]
    exact Nat.mod_eq_of_lt (by omega)
  simp only [clear_value, h, if_true, h1, h2]
  rw [Nat.lor_comm, ← Nat.mul_add_lt_is_or hc]
  omega

theorem clear_value_32 (fb : framebuffer) (color : color_t) (h : fb.bpp = 32)
    (hc : color.value < 2 ^ 32) :
    clear_value fb color = color.value := by
  have h1 : color.value % 2 ^ 32 = color.value := Nat.mod_eq_of_lt hc
  show (if fb.bpp = 16 then _ else color.value % 2 ^ 32) = color.value
  rw [if_neg (by omega), h1]

theorem doubled_halfword_bytes (c : Nat) (hc : c < 65536) :
    (c + 65536 * c) % 256 = c % 256 ∧ (c + 65536 * c) / 256 % 256 = c / 256 % 256 ∧
    (c + 65536 * c) / 65536 % 256 = c % 256 ∧
    (c + 65536 * c) / 16777216 % 256 = c / 256 % 256 := by
  have h2 : (c + 65536 * c) / 256 = c / 256 + 256 * c := by omega
  have h3 : (c + 65536 * c) / 65536 = c := by omega
  have h4 : (c + 65536 * c) / 16777216 = c / 256 := by
    rw [show 16777216 = 65536 * 256 from rfl, ← Nat.div_div_eq_div_mul, h3]
  rw [h2, h3, h4]
  omega

/-- The part of the contract of `clear` that the code meets: every cell that lies
in the first `4 * (data_length / 4)` bytes reads back as the colour. -/
theorem clear_framebuffer_cell (fb : framebuffer) (m : Mem) (color : color_t) (k : Nat)
    (hbpp : fb.bpp = 16 ∨ fb.bpp = 32) (hc : color.value < 2 ^ fb.bpp)
    (hk : (k + 1) * (fb.bpp / 8) ≤ 4 * (fb.data_length / 4)) :
    read_cell fb (clear_framebuffer fb m color) k = color.value := by
  unfold read_cell
  rcases hbpp with h | h
  · rw [h] at hc hk
    have hv := clear_value_16 fb color h hc
    have hcongr : load_le (clear_framebuffer fb m color) (k * (fb.bpp / 8)) (fb.bpp / 8)
        = load_le (store_le m (k * 2) 2 color.value) (k * 2) 2 := by
      rw [h]
      apply load_le_congr
      intro a h1 h2
      rw [clear_framebuffer_byte, if_pos (by omega), hv, store_le_inside _ _ _ _ _ h1 h2]
      have hcases : (a % 4 = 0 ∧ a - k * 2 = 0) ∨ (a % 4 = 1 ∧ a - k * 2 = 1)
          ∨ (a % 4 = 2 ∧ a - k * 2 = 0) ∨ (a % 4 = 3 ∧ a - k * 2 = 1) := by omega
      obtain ⟨b0, b1, b2, b3⟩ := doubled_halfword_bytes color.value (by omega)
      rcases hcases with ⟨e1, e2⟩ | ⟨e1, e2⟩ | ⟨e1, e2⟩ | ⟨e1, e2⟩ <;> rw [e1, e2] <;>
        norm_num <;> assumption
    rw [hcongr, load_le_store_le]
    exact Nat.mod_eq_of_lt (by norm_num; omega)
  · rw [h] at hc hk
    have hv := clear_value_32 fb color h hc
    have hcongr : load_le (clear_framebuffer fb m color) (k * (fb.bpp / 8)) (fb.bpp / 8)
        = load_le (store_le m (k * 4) 4 color.value) (k * 4) 4 := by
      rw [h]
      apply load_le_congr
      intro a h1 h2
      rw [clear_framebuffer_byte, if_pos (by omega), hv, store_le_inside _ _ _ _ _ h1 h2]
      have : a % 4 = a - k * 4 := by omega
      rw [this]
    rw [hcongr, load_le_store_le]
    exact Nat.mod_eq_of_lt (by norm_num; omega)

/-- C1 at its failing input: on a 3x1 surface at 16 bpp with a 6-byte mapping,
`clear_framebuffer` with the native colour 0x1234 sets the cells 0 and 1, and
leaves cell 2 (bytes 4 and 5, inside `data_length`) at its old value 0. -/
theorem clear_framebuffer_skips_last_cell :
    (2 + 1) * (fb_3x1_16.bpp / 8) ≤ fb_3x1_16.data_length ∧
    read_cell fb_3x1_16 (clear_framebuffer fb_3x1_16 zero_mem ⟨0x1234⟩) 0 = 0x1234 ∧
    read_cell fb_3x1_16 (clear_framebuffer fb_3x1_16 zero_mem ⟨0x1234⟩) 1 = 0x1234 ∧
    read_cell fb_3x1_16 (clear_framebuffer fb_3x1_16 zero_mem ⟨0x1234⟩) 2 = 0 := by
  decide

/-! ## The corner hit test of `main_loop` -/

theorem clamp_coord_natCast (n : Nat) (h : n < 2 ^ 32) : clamp_coord (n : Int) = n := by
  unfold clamp_coord
  split
  · rw [Int.toNat_ofNat]
    exact Nat.mod_eq_of_lt h
  · have : n = 0 := by omega
    subst this
    rfl

theorem hit_test_top_right (fb : framebuffer) (hw : fb.width < 2 ^ 32) (h1 : 30 < fb.width) :
    hit_test fb (fb.width - 1) 0 = action.power_off := by
  unfold hit_test
  split_ifs <;> first | rfl | omega

theorem hit_test_bottom_right (fb : framebuffer) (hw : fb.width < 2 ^ 32)
    (hh : fb.height < 2 ^ 32) (h1 : 30 < fb.width) (h2 : 31 < fb.height) :
    hit_test fb (fb.width - 1) (fb.height - 1) = action.reboot := by
  unfold hit_test
  split_ifs <;> first | rfl | omega

theorem hit_test_top_left (fb : framebuffer) (hw : fb.width < 2 ^ 32) (h1 : 30 < fb.width) :
    hit_test fb 0 0 = action.exit_loop := by
  unfold hit_test
  split_ifs <;> first | rfl | omega

theorem hit_test_centre (fb : framebuffer) (hw : fb.width < 2 ^ 32) (hh : fb.height < 2 ^ 32)
    (h1 : 30 < fb.width) (h2 : 31 < fb.height) (h3 : 61 < fb.width ∨ 61 < fb.height) :
    hit_test fb (fb.width / 2) (fb.height / 2) = action.no_action := by
  unfold hit_test
  split_ifs <;> first | rfl | omega

theorem poll_step_sample (fb : framebuffer) (p : poll_round) (hr : p.revents = true)
    (h1 : p.ret = 1) :
    poll_step fb p =
      match touch_action fb p.samp_x p.samp_y with
      | action.power_off =>
        ([event.print_temp, event.poll 1000, event.ts_read,
          event.fb_print msg.initiating_shutdown, event.shutdown],
          if p.exec_fails then none else some ending.powered_off)
      | action.reboot =>
        ([event.print_temp, event.poll 1000, event.ts_read,
          event.fb_print msg.initiating_reboot, event.reboot],
          if p.exec_fails then none else some ending.rebooted)
      | action.exit_loop =>
        ([event.print_temp, event.poll 1000, event.ts_read, event.ts_close],
          some ending.exited)
      | action.no_action => ([event.print_temp, event.poll 1000, event.ts_read], none) := by
  unfold poll_step
  rw [if_neg (by simp [hr]), if_neg (by simp [h1])]

theorem dispatch_power_off (fb : framebuffer) (p : poll_round) (rest : List poll_round)
    (hr : p.revents = true) (h1 : p.ret = 1) (he : p.exec_fails = false)
    (ha : touch_action fb p.samp_x p.samp_y = action.power_off) :
    dispatch fb (p :: rest) =
      ([event.print_temp, event.poll 1000, event.ts_read,
        event.fb_print msg.initiating_shutdown, event.shutdown], ending.powered_off) := by
  rw [dispatch, poll_step_sample fb p hr h1, ha, he]
  rfl

theorem dispatch_reboot (fb : framebuffer) (p : poll_round) (rest : List poll_round)
    (hr : p.revents = true) (h1 : p.ret = 1) (he : p.exec_fails = false)
    (ha : touch_action fb p.samp_x p.samp_y = action.reboot) :
    dispatch fb (p :: rest) =
      ([event.print_temp, event.poll 1000, event.ts_read,
        event.fb_print msg.initiating_reboot, event.reboot], ending.rebooted) := by
  rw [dispatch, poll_step_sample fb p hr h1, ha, he]
  rfl

theorem dispatch_exit_loop (fb : framebuffer) (p : poll_round) (rest : List poll_round)
    (hr : p.revents = true) (h1 : p.ret = 1)
    (ha : touch_action fb p.samp_x p.samp_y = action.exit_loop) :
    dispatch fb (p :: rest) =
      ([event.print_temp, event.poll 1000, event.ts_read, event.ts_close],
        ending.exited) := by
  rw [dispatch, poll_step_sample fb p hr h1, ha]

theorem dispatch_no_action (fb : framebuffer) (p : poll_round) (rest : List poll_round)
    (hr : p.revents = true) (h1 : p.ret = 1)
    (ha : touch_action fb p.samp_x p.samp_y = action.no_action) :
    dispatch fb (p :: rest) =
      ([event.print_temp, event.poll 1000, event.ts_read] ++ (dispatch fb rest).1,
        (dispatch fb rest).2) := by
  rw [dispatch, poll_step_sample fb p hr h1, ha]

/-- C2 as stated fails on a small surface: on a 40x40 surface the centre sample
(width / 2, height / 2) = (20, 20) lies in the 30-pixel top-right zone and is
answered with PowerOff, not with no action. -/
theorem centre_sample_powers_off_40x40 :
    touch_action fb_40x40_32 ((fb_40x40_32.width / 2 : Nat) : Int)
      ((fb_40x40_32.height / 2 : Nat) : Int) = action.power_off := by
  decide

/-- C2, amended: on every surface wider than 30 and higher than 31 pixels with
width or height above 61, the sample (width-1, 0) gives PowerOff, (width-1,
height-1) gives Reboot, (0, 0) gives ExitLoop and (width/2, height/2) gives no
action; in the poll loop the first two print their status line and call
shutdown and reboot, the third leaves the loop for `ts_close`, and after the
fourth the loop goes on with the next round. -/
theorem corner_hit_tests (fb : framebuffer) (hw : fb.width < 2 ^ 32)
    (hh : fb.height < 2 ^ 32) (h1 : 30 < fb.width) (h2 : 31 < fb.height)
    (h3 : 61 < fb.width ∨ 61 < fb.height) :
    (touch_action fb ((fb.width : Int) - 1) 0 = action.power_off ∧
      touch_action fb ((fb.width : Int) - 1) ((fb.height : Int) - 1) = action.reboot ∧
      touch_action fb 0 0 = action.exit_loop ∧
      touch_action fb ((fb.width / 2 : Nat) : Int) ((fb.height / 2 : Nat) : Int)
        = action.no_action) ∧
    (∀ (rest : List poll_round) (exec_fails : Bool),
      dispatch fb (⟨true, 1, (fb.width : Int) - 1, 0, false⟩ :: rest) =
        ([event.print_temp, event.poll 1000, event.ts_read,
          event.fb_print msg.initiating_shutdown, event.shutdown], ending.powered_off) ∧
      dispatch fb (⟨true, 1, (fb.width : Int) - 1, (fb.height : Int) - 1, false⟩ :: rest) =
        ([event.print_temp, event.poll 1000, event.ts_read,
          event.fb_print msg.initiating_reboot, event.reboot], ending.rebooted) ∧
      dispatch fb (⟨true, 1, 0, 0, exec_fails⟩ :: rest) =
        ([event.print_temp, event.poll 1000, event.ts_read, event.ts_close],
          ending.exited) ∧
      dispatch fb (⟨true, 1, ((fb.width / 2 : Nat) : Int), ((fb.height / 2 : Nat) : Int),
          exec_fails⟩ :: rest) =
        ([event.print_temp, event.poll 1000, event.ts_read] ++ (dispatch fb rest).1,
          (dispatch fb rest).2)) := by
  have ew : (fb.width : Int) - 1 = ((fb.width - 1 : Nat) : Int) := by omega
  have eh : (fb.height : Int) - 1 = ((fb.height - 1 : Nat) : Int) := by omega
  have e0 : (0 : Int) = ((0 : Nat) : Int) := rfl
  have hit : touch_action fb ((fb.width : Int) - 1) 0 = action.power_off ∧
      touch_action fb ((fb.width : Int) - 1) ((fb.height : Int) - 1) = action.reboot ∧
      touch_action fb 0 0 = action.exit_loop ∧
      touch_action fb ((fb.width / 2 : Nat) : Int) ((fb.height / 2 : Nat) : Int)
        = action.no_action := by
    unfold touch_action
    rw [ew, eh, e0]
    rw [clamp_coord_natCast (fb.width - 1) (by omega),
      clamp_coord_natCast (fb.height - 1) (by omega), clamp_coord_natCast 0 (by omega),
      clamp_coord_natCast (fb.width / 2) (by omega),
      clamp_coord_natCast (fb.height / 2) (by omega)]
    exact ⟨hit_test_top_right fb hw h1, hit_test_bottom_right fb hw hh h1 h2,
      hit_test_top_left fb hw h1, hit_test_centre fb hw hh h1 h2 h3⟩
  obtain ⟨a1, a2, a3, a4⟩ := hit
  refine ⟨⟨a1, a2, a3, a4⟩, ?_⟩
  intro rest exec_fails
  refine ⟨?_, ?_, ?_, ?_⟩
  · exact dispatch_power_off fb _ rest rfl rfl rfl a1
  · exact dispatch_reboot fb _ rest rfl rfl rfl a2
  · exact dispatch_exit_loop fb _ rest rfl rfl a3
  · exact dispatch_no_action fb _ rest rfl rfl a4

/-- The hit tests of `corner_hit_tests` on a 320x240 surface. -/
theorem corner_hit_tests_320x240 :
    (30 < fb_320x240_16.width ∧ 31 < fb_320x240_16.height ∧ 61 < fb_320x240_16.width) ∧
    touch_action fb_320x240_16 ((fb_320x240_16.width : Int) - 1) 0 = action.power_off ∧
    touch_action fb_320x240_16 ((fb_320x240_16.width : Int) - 1)
      ((fb_320x240_16.height : Int) - 1) = action.reboot ∧
    touch_action fb_320x240_16 0 0 = action.exit_loop ∧
    touch_action fb_320x240_16 ((fb_320x240_16.width / 2 : Nat) : Int)
      ((fb_320x240_16.height / 2 : Nat) : Int) = action.no_action :=
  ⟨by decide,
    (corner_hit_tests fb_320x240_16 (by decide) (by decide) (by decide) (by decide)
      (Or.inl (by decide))).1⟩

/-! ## `blit_png` -/

/-- The row count of the clipping path of `blit_png` (image narrower or wider
than the surface), when all quantities are below 2^31: all rows when the image
fits, `surface_height - dst_y` rows when it does not, none from `dst_y` at or
below the last row on. -/
theorem blit_max_y_clips (image : png_file) (fb : framebuffer) (dst_y : Nat)
    (hH : image.height < 2 ^ 31) (hS : fb.height < 2 ^ 31) (hy : dst_y < 2 ^ 31) :
    (blit_max_y image fb dst_y).toNat =
      if dst_y + image.height < fb.height then image.height else fb.height - dst_y := by
  unfold blit_max_y to_int
  split_ifs <;> omega

/-- C3 at its failing input: an image as wide as the surface (2 pixels), 3 rows
high, blitted at `dst_y = 1` on a surface of height 2.  The claim has one row
drawn, at row 1, and no row from 2 on written.  The code copies all 3 rows to
the start of the buffer: row 0 is overwritten, row 1 holds the second image row
(its first byte is 9), and row 2, past the 16 bytes of the surface, is written. -/
theorem blit_png_full_width_ignores_clipping :
    png_2x3.width = fb_2x2_32.width ∧ 1 + png_2x3.height > fb_2x2_32.height ∧
    blit_png png_2x3 fb_2x2_32 zero_mem 0 1 0 = 1 ∧
    blit_png png_2x3 fb_2x2_32 zero_mem 0 1 (1 * fb_2x2_32.line_length) = 9 ∧
    blit_png png_2x3 fb_2x2_32 zero_mem 0 1 (2 * fb_2x2_32.line_length) = 17 ∧
    fb_2x2_32.data_length ≤ 2 * fb_2x2_32.line_length := by
  decide

/-- C4 at its failing input: a one-pixel image blitted at (2, 1) on a 4x2
surface at 32 bpp.  The claim has the pixel at byte index 1*16 + 2*4 = 24; the
code stores it at the start of row 1 (byte index 16) and leaves pixel (2, 1)
as it was. -/
theorem blit_png_ignores_dst_x :
    read_pixel fb_4x2_32 (blit_png png_1x1 fb_4x2_32 zero_mem 2 1) 2 1 = 0 ∧
    read_pixel fb_4x2_32 (blit_png png_1x1 fb_4x2_32 zero_mem 2 1) 0 1 = 0x04030201 := by
  decide

/-! ## `fb_vprintf` -/

/-- A text that fits the default 100 bytes is formatted in one pass. -/
theorem try_alloc_fits (needed : Int) (h0 : 0 ≤ needed) (h : needed < 100) :
    try_alloc needed 100 100 = ([⟨100, 100⟩], true) := by
  rw [try_alloc, if_neg (by omega), dif_neg (by omega)]

/-- A text of 100 bytes or more is formatted twice: the second pass is told it
may write `needed + 1` bytes into the block of `needed - 100 + 1` bytes that the
second `alloca` returned. -/
theorem try_alloc_again (needed : Int) (h : 100 ≤ needed) :
    try_alloc needed 100 100 = ([⟨100, 100⟩, ⟨needed - 100 + 1, needed + 1⟩], true) := by
  rw [try_alloc, if_neg (by omega), dif_pos (by omega)]
  rw [try_alloc, if_neg (by omega), dif_neg (by omega)]

/-- C8 at its failing input: for a text of exactly 100 bytes the try_alloc loop
makes two formatting passes, and the second one is told it may write 101 bytes
into a block of 1 byte. -/
theorem fb_vprintf_second_block_too_small :
    (fb_vprintf sample_env fb_16x8_32 zero_mem 0 0 sample_text sample_back 100 []).1
      = [⟨100, 100⟩, ⟨1, 101⟩] := by
  unfold fb_vprintf
  rw [try_alloc_again 100 (by decide)]
  rfl

/-! ## The connect loop of `main_loop` -/

/-- C7: whatever the outcomes of `ts_open`, with `n` the number of failures
before the first success, the connect loop makes `min (n + 1) 5` open attempts,
each failed attempt but the fifth followed by a one-second sleep, so that one
pause lies between consecutive attempts; and when the first five attempts all
fail, `main_loop` prints that the touchscreen cannot be opened and returns
without `ts_config` and without entering the poll loop. -/
theorem connect_makes_at_most_five_attempts (opens : Nat → Bool) :
    (∀ n, (∀ i, i < n → opens i = false) → opens n = true →
      connect opens 5 0 = (failed_attempts (min n 4) ++ [event.ts_open], decide (n < 5)) ∧
      (connect opens 5 0).1.count event.ts_open = min (n + 1) 5 ∧
      (connect opens 5 0).1.count (event.sleep 1) = min (n + 1) 5 - 1) ∧
    ((∀ i, i < 5 → opens i = false) →
      connect opens 5 0 = (failed_attempts 4 ++ [event.ts_open], false) ∧
      (connect opens 5 0).1.count event.ts_open = 5 ∧
      (connect opens 5 0).1.count (event.sleep 1) = 4 ∧
      ∀ (fb : framebuffer) (config_fails : Bool) (rounds : List poll_round),
        main_loop fb opens config_fails rounds =
          (event.fb_print msg.trying_to_open :: failed_attempts 4 ++
            [event.ts_open, event.fb_print msg.cannot_open, event.perror_ts_open],
            ending.device_unavailable)) := by
  have hall : (∀ i, i < 5 → opens i = false) →
      connect opens 5 0 = (failed_attempts 4 ++ [event.ts_open], false) := by
    intro h
    simp [connect, failed_attempts, h 0, h 1, h 2, h 3, h 4]
  constructor
  · intro n hfail hsucc
    rcases Nat.lt_or_ge n 5 with hn | hn
    · have hc : connect opens 5 0
          = (failed_attempts (min n 4) ++ [event.ts_open], decide (n < 5)) := by
        interval_cases n
        · simp [connect, failed_attempts, hsucc]
        · simp [connect, failed_attempts, hsucc, hfail 0]
        · simp [connect, failed_attempts, hsucc, hfail 0, hfail 1]
        · simp [connect, failed_attempts, hsucc, hfail 0, hfail 1, hfail 2]
        · simp [connect, failed_attempts, hsucc, hfail 0, hfail 1, hfail 2, hfail 3]
      rw [hc]
      refine ⟨rfl, ?_, ?_⟩ <;> interval_cases n <;> decide
    · have hc := hall (fun i hi => hfail i (by omega))
      have e1 : min n 4 = 4 := by omega
      have e2 : min (n + 1) 5 = 5 := by omega
      have e3 : decide (n < 5) = false := by simp; omega
      rw [hc, e1, e2, e3]
      exact ⟨rfl, by decide, by decide⟩
  · intro h
    have hc := hall h
    refine ⟨hc, ?_, ?_, ?_⟩
    · rw [hc]; decide
    · rw [hc]; decide
    · intro fb config_fails rounds
      simp [main_loop, hc, failed_attempts]

/-! ## `fb_print` -/

set_option maxRecDepth 20000 in
/-- The wrap rule seen in the pixels: on a 32x24 surface the string `AA` printed
from (26, 0), where 26 + 7 exceeds the width, is drawn from (2, 8) = (26 mod 8,
0 + 8) and from (10, 8).  Bit 2 of row 0 of `A` is set and bit 0 is clear: the
pixels (4, 8) and (12, 8) read the text colour, (2, 8) and (10, 8) the
background (so x was not reset to 0), and row 0 is untouched. -/
theorem fb_print_wrap_sample :
    read_pixel fb_32x24_32
      (fb_print sample_env fb_32x24_32 zero_mem 26 0 sample_text sample_back [0x41, 0x41])
      4 8 = 0xFF0000 ∧
    read_pixel fb_32x24_32
      (fb_print sample_env fb_32x24_32 zero_mem 26 0 sample_text sample_back [0x41, 0x41])
      2 8 = 0x003200 ∧
    read_pixel fb_32x24_32
      (fb_print sample_env fb_32x24_32 zero_mem 26 0 sample_text sample_back [0x41, 0x41])
      12 8 = 0xFF0000 ∧
    read_pixel fb_32x24_32
      (fb_print sample_env fb_32x24_32 zero_mem 26 0 sample_text sample_back [0x41, 0x41])
      10 8 = 0x003200 ∧
    read_pixel fb_32x24_32
      (fb_print sample_env fb_32x24_32 zero_mem 26 0 sample_text sample_back [0x41, 0x41])
      28 0 = 0 := by
  decide

/-- C10 at its failing inputs, on a 16x8 surface at 32 bpp (512 bytes) with an
opaque background: printing `A` from the cursor (0, 1), inside the surface,
writes row 8 (pixel (0, 8), byte offset 512 = height * stride); printing `A`
from the cursor (9, 0), for which x + 7 = 16 does not exceed the width, writes
column 16 of row 0, which is byte offset 64, the first pixel of row 1. -/
theorem fb_print_writes_outside_surface :
    (0 < fb_16x8_32.width ∧ 1 < fb_16x8_32.height) ∧
    fb_16x8_32.height * fb_16x8_32.line_length ≤ 8 * fb_16x8_32.line_length ∧
    read_pixel fb_16x8_32 zero_mem 0 8 = 0 ∧
    read_pixel fb_16x8_32
      (fb_print sample_env fb_16x8_32 zero_mem 0 1 sample_text sample_back [0x41])
      0 8 = 0x003200 ∧
    (9 < fb_16x8_32.width ∧ 0 < fb_16x8_32.height) ∧
    read_pixel fb_16x8_32
      (fb_print sample_env fb_16x8_32 zero_mem 9 0 sample_text sample_back [0x41])
      16 0 = 0x003200 ∧
    read_pixel fb_16x8_32
      (fb_print sample_env fb_16x8_32 zero_mem 9 0 sample_text sample_back [0x41])
      0 1 = 0x003200 := by
  decide

/-! ## `print_char` -/

theorem and_one_shiftLeft_ne_zero (val x : Nat) :
    val &&& (1 <<< x) ≠ 0 ↔ val.testBit x = true := by
  rw [Nat.one_shiftLeft]
  constructor
  · intro h
    by_contra hb
    apply h
    apply Nat.eq_of_testBit_eq
    intro i
    rw [Nat.testBit_and, Nat.testBit_two_pow, Nat.zero_testBit]
    by_cases hxi : x = i
    · subst hxi
      simp [hb]
    · simp [hxi]
  · intro hb h
    have h2 := congrArg (fun n => Nat.testBit n x) h
    simp [Nat.testBit_and, Nat.testBit_two_pow, hb] at h2

theorem row_base_le (ll sy y y2 : Nat) (h : y < y2) :
    (sy + y) * ll + ll ≤ (sy + y2) * ll := by
  have h1 : (sy + y) * ll + ll = (sy + y + 1) * ll := by ring
  rw [h1]
  exact Nat.mul_le_mul_right ll (by omega)

/-- Without `unsigned int` wrap-around the offset of a cell of the glyph is
`(start_y + y) * line_length + (start_x + x) * (bpp / 8)`. -/
theorem pixel_offset_eq (fb : framebuffer) (sx sy x y : Nat)
    (hbpp : fb.bpp = 16 ∨ fb.bpp = 32)
    (hfit : (sx + 8) * (fb.bpp / 8) ≤ fb.line_length)
    (hrows : (sy + 8) * fb.line_length ≤ 2 ^ 32)
    (hcols : (sx + 8) * fb.bpp ≤ 2 ^ 32) (hx : x < 8) (hy : y < 8) :
    pixel_offset fb (sx + x) (sy + y)
      = (sy + y) * fb.line_length + (sx + x) * (fb.bpp / 8) := by
  have hbp : 0 < fb.bpp := by omega
  have hll : 0 < fb.line_length := by
    rcases hbpp with h | h <;> rw [h] at hfit <;> omega
  have h1 : sy + y < 2 ^ 32 := by
    have := Nat.le_mul_of_pos_right (sy + 8) hll
    omega
  have h2 : (sy + y) * fb.line_length < 2 ^ 32 := by
    have := Nat.mul_lt_mul_of_pos_right (show sy + y < sy + 8 by omega) hll
    omega
  have h3 : sx + x < 2 ^ 32 := by
    have := Nat.le_mul_of_pos_right (sx + 8) hbp
    omega
  have h4 : (sx + x) * fb.bpp < 2 ^ 32 := by
    have := Nat.mul_lt_mul_of_pos_right (show sx + x < sx + 8 by omega) hbp
    omega
  unfold pixel_offset
  rw [Nat.mod_eq_of_lt h1, Nat.mod_eq_of_lt h2, Nat.mod_eq_of_lt h3, Nat.mod_eq_of_lt h4]
  rcases hbpp with h | h <;> rw [h] <;> omega

/-- Two different cells of one glyph do not share a byte. -/
theorem cells_disjoint (fb : framebuffer) (sx sy x y x2 y2 a : Nat)
    (hbpp : fb.bpp = 16 ∨ fb.bpp = 32)
    (hfit : (sx + 8) * (fb.bpp / 8) ≤ fb.line_length)
    (hrows : (sy + 8) * fb.line_length ≤ 2 ^ 32)
    (hcols : (sx + 8) * fb.bpp ≤ 2 ^ 32)
    (hx : x < 8) (hy : y < 8) (hx2 : x2 < 8) (hy2 : y2 < 8) (hne : x ≠ x2 ∨ y ≠ y2)
    (h1 : pixel_offset fb (sx + x) (sy + y) ≤ a)
    (h2 : a < pixel_offset fb (sx + x) (sy + y) + fb.bpp / 8) :
    a < pixel_offset fb (sx + x2) (sy + y2)
      ∨ pixel_offset fb (sx + x2) (sy + y2) + fb.bpp / 8 ≤ a := by
  rw [pixel_offset_eq fb sx sy x y hbpp hfit hrows hcols hx hy] at h1 h2
  rw [pixel_offset_eq fb sx sy x2 y2 hbpp hfit hrows hcols hx2 hy2]
  have hB : fb.bpp / 8 = 2 ∨ fb.bpp / 8 = 4 := by omega
  rcases Nat.lt_trichotomy y y2 with hlt | heq | hgt
  · have hr := row_base_le fb.line_length sy y y2 hlt
    rcases hB with e | e <;> rw [e] at hfit h1 h2 ⊢ <;> omega
  · subst heq
    rcases hB with e | e <;> rw [e] at hfit h1 h2 ⊢ <;> omega
  · have hr := row_base_le fb.line_length sy y2 y hgt
    rcases hB with e | e <;> rw [e] at hfit h1 h2 ⊢ <;> omega

theorem print_cell_local (env : Env) (fb : framebuffer) (sx sy : Nat)
    (color backcolor : color_t) (val y x a : Nat) (m1 m2 : Mem) (h : m1 a = m2 a) :
    print_cell env fb sx sy color backcolor val y x m1 a
      = print_cell env fb sx sy color backcolor val y x m2 a := by
  unfold print_cell
  split
  · exact store_le_local _ _ _ _ _ _ h
  · split
    · exact store_le_local _ _ _ _ _ _ h
    · exact h

theorem print_cell_outside (env : Env) (fb : framebuffer) (sx sy : Nat)
    (color backcolor : color_t) (val y x a : Nat) (m : Mem)
    (h : a < pixel_offset fb (sx + x) (sy + y)
      ∨ pixel_offset fb (sx + x) (sy + y) + fb.bpp / 8 ≤ a) :
    print_cell env fb sx sy color backcolor val y x m a = m a := by
  unfold print_cell
  split
  · exact store_le_outside _ _ _ _ _ h
  · split
    · exact store_le_outside _ _ _ _ _ h
    · rfl

theorem print_row_local (env : Env) (fb : framebuffer) (sx sy : Nat)
    (color backcolor : color_t) (glyph : Nat → Nat) (y a : Nat) (m1 m2 : Mem)
    (h : m1 a = m2 a) :
    print_row env fb sx sy color backcolor glyph y m1 a
      = print_row env fb sx sy color backcolor glyph y m2 a := by
  unfold print_row
  split
  · exact h
  · exact for_loop_local 8 _ a
      (fun j n1 n2 hn => print_cell_local env fb sx sy color backcolor _ y j a n1 n2 hn) m1 m2 h

theorem print_row_outside (env : Env) (fb : framebuffer) (sx sy : Nat)
    (color backcolor : color_t) (glyph : Nat → Nat) (y a : Nat) (m : Mem)
    (h : ∀ x, x < 8 → a < pixel_offset fb (sx + x) (sy + y)
      ∨ pixel_offset fb (sx + x) (sy + y) + fb.bpp / 8 ≤ a) :
    print_row env fb sx sy color backcolor glyph y m a = m a := by
  unfold print_row
  split
  · rfl
  · exact for_loop_outside 8 _ m a
      (fun j hj n => print_cell_outside env fb sx sy color backcolor _ y j a n (h j hj))

theorem print_row_at (env : Env) (fb : framebuffer) (sx sy : Nat)
    (color backcolor : color_t) (glyph : Nat → Nat) (x y a : Nat) (m : Mem)
    (hbpp : fb.bpp = 16 ∨ fb.bpp = 32)
    (hfit : (sx + 8) * (fb.bpp / 8) ≤ fb.line_length)
    (hrows : (sy + 8) * fb.line_length ≤ 2 ^ 32)
    (hcols : (sx + 8) * fb.bpp ≤ 2 ^ 32) (hx : x < 8) (hy : y < 8)
    (h1 : pixel_offset fb (sx + x) (sy + y) ≤ a)
    (h2 : a < pixel_offset fb (sx + x) (sy + y) + fb.bpp / 8) :
    print_row env fb sx sy color backcolor glyph y m a
      = print_cell env fb sx sy color backcolor (glyph y % 256) y x m a := by
  unfold print_row
  split
  · next hc =>
    obtain ⟨hv, ht⟩ := hc
    unfold print_cell
    simp [hv, ht]
  · exact for_loop_at 8 _ m a x hx
      (fun j n1 n2 hn => print_cell_local env fb sx sy color backcolor _ y j a n1 n2 hn)
      (fun j hj hne n => print_cell_outside env fb sx sy color backcolor _ y j a n
        (cells_disjoint fb sx sy x y j y a hbpp hfit hrows hcols hx hy hj hy
          (Or.inl (fun e => hne e.symm)) h1 h2))

theorem print_char_at (env : Env) (fb : framebuffer) (m : Mem) (sx sy : Nat)
    (color backcolor : color_t) (c : Nat) (glyph : Nat → Nat)
    (hg : char_array env c = some glyph) (x y a : Nat)
    (hbpp : fb.bpp = 16 ∨ fb.bpp = 32)
    (hfit : (sx + 8) * (fb.bpp / 8) ≤ fb.line_length)
    (hrows : (sy + 8) * fb.line_length ≤ 2 ^ 32)
    (hcols : (sx + 8) * fb.bpp ≤ 2 ^ 32) (hx : x < 8) (hy : y < 8)
    (h1 : pixel_offset fb (sx + x) (sy + y) ≤ a)
    (h2 : a < pixel_offset fb (sx + x) (sy + y) + fb.bpp / 8) :
    print_char env fb m sx sy color backcolor c a
      = print_cell env fb sx sy color backcolor (glyph y % 256) y x m a := by
  have hat := for_loop_at 8 (print_row env fb sx sy color backcolor glyph) m a y hy
    (fun j n1 n2 hn => print_row_local env fb sx sy color backcolor glyph j a n1 n2 hn)
    (fun j hj hne n => print_row_outside env fb sx sy color backcolor glyph j a n
      (fun x2 hx2 => cells_disjoint fb sx sy x y x2 j a hbpp hfit hrows hcols hx hy hx2 hj
        (Or.inr (fun e => hne e.symm)) h1 h2))
  simp only [print_char, hg]
  rw [hat]
  exact print_row_at env fb sx sy color backcolor glyph x y a m hbpp hfit hrows hcols hx hy h1 h2

theorem print_char_outside (env : Env) (fb : framebuffer) (m : Mem) (sx sy : Nat)
    (color backcolor : color_t) (c a : Nat)
    (h : ∀ x y, x < 8 → y < 8 → a < pixel_offset fb (sx + x) (sy + y)
      ∨ pixel_offset fb (sx + x) (sy + y) + fb.bpp / 8 ≤ a) :
    print_char env fb m sx sy color backcolor c a = m a := by
  unfold print_char
  cases char_array env c with
  | none => rfl
  | some glyph =>
    exact for_loop_outside 8 _ m a
      (fun j hj n => print_row_outside env fb sx sy color backcolor glyph j a n
        (fun x hx => h x j hx hj))

theorem print_cell_set (env : Env) (fb : framebuffer) (sx sy : Nat)
    (color backcolor : color_t) (val y x : Nat) (m : Mem) (hb : val.testBit x = true) :
    print_cell env fb sx sy color backcolor val y x m
      = store_le m (pixel_offset fb (sx + x) (sy + y)) (fb.bpp / 8) color.value := by
  unfold print_cell
  rw [if_pos ((and_one_shiftLeft_ne_zero val x).2 hb)]

theorem print_cell_clear_opaque (env : Env) (fb : framebuffer) (sx sy : Nat)
    (color backcolor : color_t) (val y x : Nat) (m : Mem) (hb : val.testBit x = false)
    (ht : env.is_transparent backcolor = false) :
    print_cell env fb sx sy color backcolor val y x m
      = store_le m (pixel_offset fb (sx + x) (sy + y)) (fb.bpp / 8) backcolor.value := by
  unfold print_cell
  rw [if_neg (fun h => by rw [(and_one_shiftLeft_ne_zero val x).1 h] at hb; cases hb)]
  simp [ht]

theorem print_cell_clear_transparent (env : Env) (fb : framebuffer) (sx sy : Nat)
    (color backcolor : color_t) (val y x : Nat) (m : Mem) (hb : val.testBit x = false)
    (ht : env.is_transparent backcolor = true) :
    print_cell env fb sx sy color backcolor val y x m = m := by
  unfold print_cell
  rw [if_neg (fun h => by rw [(and_one_shiftLeft_ne_zero val x).1 h] at hb; cases hb)]
  simp [ht]

theorem pow_256_bytes (fb : framebuffer) (hbpp : fb.bpp = 16 ∨ fb.bpp = 32) :
    256 ^ (fb.bpp / 8) = 2 ^ fb.bpp := by
  rcases hbpp with h | h <;> rw [h] <;> norm_num

theorem read_pixel_at_offset (fb : framebuffer) (m : Mem) (sx sy x y : Nat)
    (hbpp : fb.bpp = 16 ∨ fb.bpp = 32)
    (hfit : (sx + 8) * (fb.bpp / 8) ≤ fb.line_length)
    (hrows : (sy + 8) * fb.line_length ≤ 2 ^ 32)
    (hcols : (sx + 8) * fb.bpp ≤ 2 ^ 32) (hx : x < 8) (hy : y < 8) :
    read_pixel fb m (sx + x) (sy + y)
      = load_le m (pixel_offset fb (sx + x) (sy + y)) (fb.bpp / 8) := by
  unfold read_pixel
  rw [pixel_offset_eq fb sx sy x y hbpp hfit hrows hcols hx hy]
  have e : (sx + x) * fb.bpp / 8 = (sx + x) * (fb.bpp / 8) := by
    rcases hbpp with h | h <;> rw [h] <;> omega
  rw [e]

/-- C5 as stated fails for a start position whose cell runs past the end of a
row: on a 16x8 surface at 32 bpp (64 bytes a row) the cursor (9, 0) passes the
wrap test of `fb_print` unchanged, and `A` printed there with an opaque
background changes pixel (0, 1), which is left of the cell's first column 9:
cell column 16 of row 0 is byte offset 64, the start of row 1. -/
theorem print_char_past_row_end_changes_next_row :
    wrap_cursor fb_16x8_32 9 0 = (9, 0) ∧
    (9 + 8) * (fb_16x8_32.bpp / 8) > fb_16x8_32.line_length ∧ 0 < 9 ∧
    read_pixel fb_16x8_32 zero_mem 0 1 = 0 ∧
    read_pixel fb_16x8_32
      (print_char sample_env fb_16x8_32 zero_mem 9 0 sample_text sample_back 0x41) 0 1
      = 0x003200 := by
  decide

/-- C5, amended: on a surface with bpp 16 or 32, for a code point with a glyph
and a start position whose 8 columns lie within one row of the buffer
((start_x + 8) * bpp / 8 ≤ line_length) and whose 8 rows lie within the mapping
((start_y + 8) * line_length ≤ data_length), the column offsets not wrapping in
32 bits: every cell (x, y) of the 8x8 cell lies inside the `data_length` bytes
of the mapping, and after `print_char` it reads the foreground colour when bit
x of glyph row y is set, the background colour when the bit is clear and the
background is not the transparency sentinel, and its previous value when the
bit is clear and the background is the sentinel; and no byte outside the 64
cells is changed. -/
theorem print_char_cells (env : Env) (fb : framebuffer) (m : Mem) (start_x start_y : Nat)
    (color backcolor : color_t) (c : Nat) (glyph : Nat → Nat)
    (hg : char_array env c = some glyph)
    (hbpp : fb.bpp = 16 ∨ fb.bpp = 32)
    (hfit : (start_x + 8) * (fb.bpp / 8) ≤ fb.line_length)
    (hmap : (start_y + 8) * fb.line_length ≤ fb.data_length)
    (hdata : fb.data_length < 2 ^ 32)
    (hcols : (start_x + 8) * fb.bpp ≤ 2 ^ 32) :
    (∀ x y, x < 8 → y < 8 →
      (start_y + y) * fb.line_length + (start_x + x) * fb.bpp / 8 + fb.bpp / 8
        ≤ fb.data_length ∧
      ((glyph y % 256).testBit x = true →
        read_pixel fb (print_char env fb m start_x start_y color backcolor c)
          (start_x + x) (start_y + y) = color.value % 2 ^ fb.bpp) ∧
      ((glyph y % 256).testBit x = false → env.is_transparent backcolor = false →
        read_pixel fb (print_char env fb m start_x start_y color backcolor c)
          (start_x + x) (start_y + y) = backcolor.value % 2 ^ fb.bpp) ∧
      ((glyph y % 256).testBit x = false → env.is_transparent backcolor = true →
        read_pixel fb (print_char env fb m start_x start_y color backcolor c)
          (start_x + x) (start_y + y) = read_pixel fb m (start_x + x) (start_y + y))) ∧
    (∀ a, (∀ x y, x < 8 → y < 8 →
        a < (start_y + y) * fb.line_length + (start_x + x) * (fb.bpp / 8)
        ∨ (start_y + y) * fb.line_length + (start_x + x) * (fb.bpp / 8) + fb.bpp / 8 ≤ a) →
      print_char env fb m start_x start_y color backcolor c a = m a) := by
  have hrows : (start_y + 8) * fb.line_length ≤ 2 ^ 32 := by omega
  constructor
  · intro x y hx hy
    have hread := fun n : Mem =>
      read_pixel_at_offset fb n start_x start_y x y hbpp hfit hrows hcols hx hy
    have hcell := fun a h1 h2 =>
      print_char_at env fb m start_x start_y color backcolor c glyph hg x y a
        hbpp hfit hrows hcols hx hy h1 h2
    refine ⟨?_, ?_, ?_, ?_⟩
    · have hr := row_base_le fb.line_length start_y y 8 hy
      rcases hbpp with h | h <;> rw [h] at hfit ⊢ <;> omega
    · intro hb
      rw [hread, ← pow_256_bytes fb hbpp, ← load_le_store_le m (fb.bpp / 8)
        (pixel_offset fb (start_x + x) (start_y + y)) color.value]
      apply load_le_congr
      intro a h1 h2
      rw [hcell a h1 h2, print_cell_set env fb start_x start_y color backcolor _ y x m hb]
    · intro hb ht
      rw [hread, ← pow_256_bytes fb hbpp, ← load_le_store_le m (fb.bpp / 8)
        (pixel_offset fb (start_x + x) (start_y + y)) backcolor.value]
      apply load_le_congr
      intro a h1 h2
      rw [hcell a h1 h2,
        print_cell_clear_opaque env fb start_x start_y color backcolor _ y x m hb ht]
    · intro hb ht
      rw [hread, hread]
      apply load_le_congr
      intro a h1 h2
      rw [hcell a h1 h2,
        print_cell_clear_transparent env fb start_x start_y color backcolor _ y x m hb ht]
  · intro a h
    apply print_char_outside
    intro x y hx hy
    rw [pixel_offset_eq fb start_x start_y x y hbpp hfit hrows hcols hx hy]
    exact h x y hx hy

/-- The glyph `A` at (2, 0) on the 16x8 surface, whose 8 rows end with the
mapping: cell (2, 0) has its bit set and reads the text colour, cell (0, 0) has
it clear and reads the background, or its old value under the transparent
background. -/
theorem print_char_cells_sample :
    ((2 + 8) * (fb_16x8_32.bpp / 8) ≤ fb_16x8_32.line_length ∧
      (0 + 8) * fb_16x8_32.line_length ≤ fb_16x8_32.data_length ∧
      fb_16x8_32.data_length < 2 ^ 32 ∧ (2 + 8) * fb_16x8_32.bpp ≤ 2 ^ 32) ∧
    read_pixel fb_16x8_32
      (print_char sample_env fb_16x8_32 zero_mem 2 0 sample_text sample_back 0x41)
      (2 + 2) (0 + 0) = sample_text.value % 2 ^ fb_16x8_32.bpp ∧
    read_pixel fb_16x8_32
      (print_char sample_env fb_16x8_32 zero_mem 2 0 sample_text sample_back 0x41)
      (2 + 0) (0 + 0) = sample_back.value % 2 ^ fb_16x8_32.bpp ∧
    read_pixel fb_16x8_32
      (print_char sample_env fb_16x8_32 zero_mem 2 0 sample_text ⟨0xFF000000⟩ 0x41)
      (2 + 0) (0 + 0) = read_pixel fb_16x8_32 zero_mem (2 + 0) (0 + 0) :=
  ⟨by decide,
    ((print_char_cells sample_env fb_16x8_32 zero_mem 2 0 sample_text sample_back 0x41
      (sample_env.font8x8_basic 0x41) rfl (Or.inr rfl) (by decide) (by decide) (by decide)
      (by decide)).1 2 0 (by decide) (by decide)).2.1 (by decide),
    ((print_char_cells sample_env fb_16x8_32 zero_mem 2 0 sample_text sample_back 0x41
      (sample_env.font8x8_basic 0x41) rfl (Or.inr rfl) (by decide) (by decide) (by decide)
      (by decide)).1 0 0 (by decide) (by decide)).2.2.1 (by decide) (by decide),
    ((print_char_cells sample_env fb_16x8_32 zero_mem 2 0 sample_text ⟨0xFF000000⟩ 0x41
      (sample_env.font8x8_basic 0x41) rfl (Or.inr rfl) (by decide) (by decide) (by decide)
      (by decide)).1 0 0 (by decide) (by decide)).2.2.2 (by decide) (by decide)⟩

end Desco
